import Mathlib

/-!
Verification development for the update-orchestrator and zone-bundle cores of
the omicron repository.

The Rust sources are embedded shallowly:

* `wicketd/src/update_tracker.rs` — the update tracker's record map, plan
  store, trampoline uploader, RoT/SP/Host step registration, and the MGS
  status poll loop.  Async tasks are modelled by their observable data: a
  device record carries a `taskFinished` flag; MGS interactions are modelled
  as traces of responses supplied as inputs.
* `sled-agent/src/zone_bundle.rs` — the cleanup engine: bundle priority
  comparison, per-root pruning, and the cleanup-context update rules.

Machine integers (`u16`, `u64`) are modelled as `Nat`; no operation in the
modelled code can overflow or relies on wrap-around.  Fallible operations
return `Except`.
-/

namespace Spec2Proof

/-! ### Update tracker data model (wicketd/src/update_tracker.rs) -/

/-- Device kind of an `SpIdentifier` (`SpType` in gateway-client). -/
inductive SpType
  | sled
  | switch
  | power
deriving DecidableEq

/-- Target device identity: kind plus `u16` slot. -/
structure SpIdentifier where
  type_ : SpType
  slot : Nat
deriving DecidableEq

/-- Modelled from the spec: the staged update plan is out-of-scope internal
structure except for its identity and the content hash of the trampoline
phase-2 artifact (`plan.trampoline_phase_2.data.hash()`), which are the only
parts the tracker logic under `src/` inspects. -/
structure UpdatePlan where
  planId : Nat
  trampolinePhase2Hash : Nat
deriving DecidableEq

/-- An event report generated from a device's event buffer.  Its internal
structure is irrelevant to the tracked claims; the default (`NotStarted`)
report is the empty list. -/
abbrev EventReport := List Nat

/-- Per-device update record (`SpUpdateData`): the spawned task, modelled by
whether it has finished, and the shared event buffer. -/
structure SpUpdateData where
  taskFinished : Bool
  eventBuffer : EventReport
deriving DecidableEq

/-- The state behind the tracker mutex (`UpdateTrackerData`): the record map
(a `BTreeMap`, modelled as an association list) and the artifact store's
current plan. -/
structure UpdateTrackerData where
  sp_update_data : List (SpIdentifier × SpUpdateData)
  plan : Option UpdatePlan
deriving DecidableEq

/-- Map lookup on the record association list. -/
def lookupSp (sp : SpIdentifier) :
    List (SpIdentifier × SpUpdateData) → Option SpUpdateData
  | [] => Option.none
  | (k, v) :: rest => if k = sp then some v else lookupSp sp rest

/-- Map insert (the `Entry` API's vacant-insert / occupied-replace). -/
def insertSp (sp : SpIdentifier) (d : SpUpdateData) :
    List (SpIdentifier × SpUpdateData) → List (SpIdentifier × SpUpdateData)
  | [] => [(sp, d)]
  | (k, v) :: rest =>
      if k = sp then (sp, d) :: rest else (k, v) :: insertSp sp d rest

/-- The devices whose update task is not finished (`running_sps` in
`UpdateTrackerData::put_repository`). -/
def runningSps (st : UpdateTrackerData) : List SpIdentifier :=
  (st.sp_update_data.filter (fun p => !p.2.taskFinished)).map Prod.fst

/-- `UpdateTrackerData::put_repository`.  If any device's task is unfinished
the request is rejected with an HTTP bad-request error whose message is the
source's string literal (note: the Rust code applies `.to_owned()` to the
literal `"Updates currently running for {running_sps:?}"`, so the format
placeholder is never interpolated).  Otherwise the artifact store ingests the
stream — modelled from the spec: the repository parser is an external
collaborator handing the core a validated plan — and the record map is
cleared. -/
def put_repository (st : UpdateTrackerData) (newPlan : UpdatePlan) :
    Except String Unit × UpdateTrackerData :=
  let running_sps := runningSps st
  if running_sps.isEmpty then
    (Except.ok (), { sp_update_data := [], plan := some newPlan })
  else
    (Except.error "Updates currently running for \x7brunning_sps:?\x7d", st)

/-- `UpdateTracker::event_report`: a vacant entry yields the default report. -/
def event_report (st : UpdateTrackerData) (sp : SpIdentifier) : EventReport :=
  match lookupSp sp st.sp_update_data with
  | Option.none => []
  | some d => d.eventBuffer

/-- Errors returned by `start` / `update_pre_checks`. -/
inductive StartUpdateError
  | updateInProgress (sps : List SpIdentifier)
  | tufRepositoryUnavailable
deriving DecidableEq

/-- Whether a device currently has an in-progress update: it has a record and
the record's task is not finished. -/
def inProgress (st : UpdateTrackerData) (sp : SpIdentifier) : Bool :=
  match lookupSp sp st.sp_update_data with
  | Option.none => false
  | some d => !d.taskFinished

/-- `UpdateTracker::start_impl`.  The third component of the result counts
the update-driver tasks spawned by this call; `spawnDriver = false` models
passing `None::<NeverUpdateDriver>` (the `update_pre_checks` path).  A
freshly spawned record has an unfinished task and an empty event buffer. -/
def start_impl (st : UpdateTrackerData) (sps : List SpIdentifier)
    (spawnDriver : Bool) :
    Except (List StartUpdateError) Unit × UpdateTrackerData × Nat :=
  let update_in_progress := sps.filter (fun sp => inProgress st sp)
  let errors :=
    (if update_in_progress.isEmpty then []
     else [StartUpdateError.updateInProgress update_in_progress])
    ++ (if st.plan.isSome then [] else [StartUpdateError.tufRepositoryUnavailable])
  if errors.isEmpty then
    if spawnDriver then
      (Except.ok (),
       { st with
         sp_update_data :=
           sps.foldl (fun m sp => insertSp sp ⟨false, []⟩ m) st.sp_update_data },
       sps.length)
    else (Except.ok (), st, 0)
  else (Except.error errors, st, 0)

/-- `UpdateTracker::update_pre_checks` delegates to `start_impl` with the
uninhabited spawn driver. -/
def update_pre_checks (st : UpdateTrackerData) (sps : List SpIdentifier) :
    Except (List StartUpdateError) Unit × UpdateTrackerData × Nat :=
  start_impl st sps false

/-! ### Trampoline phase-2 uploader (`RealSpawnUpdateDriver::setup`) -/

/-- Status of the singleton trampoline uploader as observed through its watch
channel: the artifact hash it was spawned for
(`UploadTrampolinePhase2ToMgsStatus.hash`). -/
structure UploadTrampolinePhase2ToMgsStatus where
  hash : Nat
deriving DecidableEq

/-- `UpdateTracker::spawn_upload_trampoline_phase_2_to_mgs`: a fresh upload
task whose status channel starts with the plan artifact's hash. -/
def spawn_upload_trampoline_phase_2_to_mgs (planHash : Nat) :
    UploadTrampolinePhase2ToMgsStatus :=
  ⟨planHash⟩

/-- `RealSpawnUpdateDriver::setup`.  Result components: the uploader slot
after setup, the number of upload tasks spawned, and the number of running
tasks aborted. -/
def realSpawnUpdateDriverSetup
    (prev : Option UploadTrampolinePhase2ToMgsStatus) (planHash : Nat) :
    Option UploadTrampolinePhase2ToMgsStatus × Nat × Nat :=
  match prev with
  | some prev =>
      if prev.hash ≠ planHash then
        (some (spawn_upload_trampoline_phase_2_to_mgs planHash), 1, 1)
      else
        (some prev, 0, 0)
  | Option.none => (some (spawn_upload_trampoline_phase_2_to_mgs planHash), 1, 0)

/-- Iterated setup against the same plan: the uploader slot after `n` start
operations, paired with the total number of upload tasks spawned. -/
def setupIter (planHash : Nat) :
    Nat → Option UploadTrampolinePhase2ToMgsStatus →
    Option UploadTrampolinePhase2ToMgsStatus × Nat
  | 0, u => (u, 0)
  | n + 1, u =>
      let r := realSpawnUpdateDriverSetup u planHash
      let rest := setupIter planHash n r.1
      (rest.1, r.2.1 + rest.2)

/-! ### RoT interrogation (`UpdateContext::interrogate_rot`) -/

/-- Failure of the interrogation (`GetRotActiveSlotFailed` with the
"unexpected RoT active slot" message). -/
inductive InterrogateRotError
  | getRotActiveSlotFailed
deriving DecidableEq

/-- Result of `interrogate_rot`, keeping the data the source computes: the
reported active slot's name, the slot chosen for the update, the artifact
paired with it, and the slot whose caboose is read for the version. -/
structure RotInterrogationResult (α : Type) where
  activeSlotName : Char
  slotToUpdate : Nat
  artifactToApply : α
  cabooseReadSlot : Nat
deriving DecidableEq

/-- `UpdateContext::interrogate_rot`, as a function of the active slot MGS
reports.  `rotA` and `rotB` are the plan's two RoT images.  The caboose read
(`sp_component_caboose_get`) is issued for `rot_active_slot`. -/
def interrogate_rot {α : Type} (rotA rotB : α) (rotActiveSlot : Nat) :
    Except InterrogateRotError (RotInterrogationResult α) :=
  match rotActiveSlot with
  | 0 => Except.ok ⟨'A', 1, rotB, rotActiveSlot⟩
  | 1 => Except.ok ⟨'B', 0, rotA, rotActiveSlot⟩
  | _ + 2 => Except.error InterrogateRotError.getRotActiveSlotFailed

/-! ### SP-component update sub-engine
(`SpComponentUpdateContext::register_steps`, `UpdateContext::poll_component_update`,
`UpdateContext::wait_for_rot_reboot`) -/

/-- Component being updated by the sub-engine. -/
inductive UpdateComponent
  | rot
  | sp
  | host
deriving DecidableEq

/-- The step identities the sub-engine registers, with the data each MGS
call receives (the `persist` flag of `sp_component_active_slot_set` and the
firmware slot). -/
inductive SpComponentUpdateStepKind
  | sending
  | preparing
  | writing
  | settingActiveBootSlot (persist : Bool) (slot : Nat)
  | resetting
  | waitForBoot (slot : Nat)
deriving DecidableEq

/-- The ordered list of steps `SpComponentUpdateContext::register_steps`
registers for a component and firmware slot. -/
def register_steps (component : UpdateComponent) (firmwareSlot : Nat) :
    List SpComponentUpdateStepKind :=
  [SpComponentUpdateStepKind.sending, SpComponentUpdateStepKind.preparing,
   SpComponentUpdateStepKind.writing]
  ++ match component with
     | UpdateComponent.rot =>
         [SpComponentUpdateStepKind.settingActiveBootSlot true firmwareSlot,
          SpComponentUpdateStepKind.resetting,
          SpComponentUpdateStepKind.waitForBoot firmwareSlot]
     | UpdateComponent.sp => [SpComponentUpdateStepKind.resetting]
     | UpdateComponent.host => []

/-- One pass of `UpdateContext::wait_for_rot_reboot`'s poll loop, starting
`fuel` seconds before the timeout deadline: each tick of the 1-second
interval reads the active slot (`polls i` is the result of the read at
elapsed time `i` seconds, `Option.none` meaning the read failed).  A
successful read returns immediately; a failed read retries while the elapsed
time is below the timeout and otherwise returns the error. -/
def rotWaitFrom (polls : Nat → Option Nat) (i : Nat) : Nat → Option Nat
  | 0 => polls i
  | fuel + 1 =>
      match polls i with
      | some slot => some slot
      | Option.none => rotWaitFrom polls (i + 1) fuel

/-- `UpdateContext::wait_for_rot_reboot` with its 1-second ticker: polls at
elapsed times `0, 1, …, timeout` seconds. -/
def wait_for_rot_reboot (timeout : Nat) (polls : Nat → Option Nat) :
    Option Nat :=
  rotWaitFrom polls 0 timeout

/-- Outcome of the "Waiting for RoT to boot" confirmation step. -/
inductive RotConfirmOutcome
  | success
  | rotUnexpectedActiveSlot (activeSlot : Nat)
  | getRotActiveSlotFailed
deriving DecidableEq

/-- The confirmation step registered after the RoT reset
(`register_steps`, `WAIT_FOR_BOOT_TIMEOUT = 30` seconds): wait for the RoT
to reboot and succeed only when the reported active slot equals the slot
just written. -/
def rot_boot_confirm_step (firmwareSlot : Nat) (polls : Nat → Option Nat) :
    RotConfirmOutcome :=
  match wait_for_rot_reboot 30 polls with
  | some activeSlot =>
      if activeSlot = firmwareSlot then RotConfirmOutcome.success
      else RotConfirmOutcome.rotUnexpectedActiveSlot activeSlot
  | Option.none => RotConfirmOutcome.getRotActiveSlotFailed

/-- The two stages `poll_component_update` can be called for. -/
inductive ComponentUpdateStage
  | preparing
  | inProgress
deriving DecidableEq

/-- MGS's `SpUpdateStatus` responses. -/
inductive SpUpdateStatus
  | none
  | preparing (id : Nat) (progress : Option (Nat × Nat))
  | inProgress (id : Nat) (bytesReceived totalBytes : Nat)
  | complete (id : Nat)
  | aborted (id : Nat)
  | failed (id : Nat) (code : Nat)
  | rotError (id : Nat)
deriving DecidableEq

/-- The update id carried by a status response, when there is one. -/
def statusId : SpUpdateStatus → Option Nat
  | SpUpdateStatus.none => Option.none
  | SpUpdateStatus.preparing id _ => some id
  | SpUpdateStatus.inProgress id _ _ => some id
  | SpUpdateStatus.complete id => some id
  | SpUpdateStatus.aborted id => some id
  | SpUpdateStatus.failed id _ => some id
  | SpUpdateStatus.rotError id => some id

/-- Errors with which `poll_component_update` bails out. -/
inductive PollError
  | spNoLongerProcessing
  | differentUpdate
  | updateAborted
  | updateFailed (code : Nat)
  | rotErrorMsg
deriving DecidableEq

/-- `UpdateContext::poll_component_update` over a trace of successive MGS
status responses (one per 300 ms poll).  `Option.none` means the trace ended
before the loop reached a verdict. -/
def poll_component_update (stage : ComponentUpdateStage) (updateId : Nat) :
    List SpUpdateStatus → Option (Except PollError Unit)
  | [] => Option.none
  | s :: rest =>
      match s with
      | SpUpdateStatus.none =>
          some (Except.error PollError.spNoLongerProcessing)
      | SpUpdateStatus.preparing id _ =>
          if id = updateId then poll_component_update stage updateId rest
          else some (Except.error PollError.differentUpdate)
      | SpUpdateStatus.inProgress id _ _ =>
          if id = updateId then
            match stage with
            | ComponentUpdateStage.preparing => some (Except.ok ())
            | ComponentUpdateStage.inProgress =>
                poll_component_update stage updateId rest
          else some (Except.error PollError.differentUpdate)
      | SpUpdateStatus.complete id =>
          if id = updateId then some (Except.ok ())
          else some (Except.error PollError.differentUpdate)
      | SpUpdateStatus.aborted id =>
          if id = updateId then some (Except.error PollError.updateAborted)
          else some (Except.error PollError.differentUpdate)
      | SpUpdateStatus.failed id code =>
          if id = updateId then some (Except.error (PollError.updateFailed code))
          else some (Except.error PollError.differentUpdate)
      | SpUpdateStatus.rotError id =>
          if id = updateId then some (Except.error PollError.rotErrorMsg)
          else some (Except.error PollError.differentUpdate)

/-! ### Host boot-slot selection
(`UpdateDriver::register_sled_steps` / `register_install_host_phase1_and_boot_steps`) -/

/-- M.2 slots reported by the installinator. -/
inductive M2Slot
  | a
  | b
deriving DecidableEq

/-- The `RunningInstallinator` step maps written M.2 slots to firmware-slot
numbers (`M2Slot::A => 0, M2Slot::B => 1`). -/
def m2SlotIndex : M2Slot → Nat
  | M2Slot.a => 0
  | M2Slot.b => 1

/-- The collected `BTreeSet<u16>` of slots installinator wrote. -/
def slots_to_update (slotsWritten : List M2Slot) : Finset Nat :=
  (slotsWritten.map m2SlotIndex).toFinset

/-- The host startup-options flags sent to MGS. -/
structure HostStartupOptions where
  boot_net : Bool
  boot_ramdisk : Bool
  bootrd : Bool
  kbm : Bool
  kmdb : Bool
  kmdb_boot : Bool
  phase2_recovery_mode : Bool
  prom : Bool
  verbose : Bool
deriving DecidableEq

/-- The all-off option set written by the standard-boot step. -/
def standardBootOptions : HostStartupOptions :=
  ⟨false, false, false, false, false, false, false, false, false⟩

/-- Error of the standard-boot startup-options step. -/
inductive HostStartupOptionsError
  | setHostBootFlashSlotFailed
deriving DecidableEq

/-- What the successful step did: the persistent active-slot write for the
host boot flash plus the startup options sent. -/
structure HostBootFlashAction where
  slot : Nat
  persist : Bool
  options : HostStartupOptions
deriving DecidableEq

/-- The `SettingHostStartupOptions` (standard boot) step: `pop_first` on the
written-slot set (the least element of the `BTreeSet`, an error when the set
is empty), then `sp_component_active_slot_set(HOST_CPU_BOOT_FLASH, slot,
persist = true)` and the all-off startup options. -/
def setting_host_startup_options_standard (slotsWritten : List M2Slot) :
    Except HostStartupOptionsError HostBootFlashAction :=
  let s := slots_to_update slotsWritten
  if h : s.Nonempty then
    Except.ok ⟨s.min' h, true, standardBootOptions⟩
  else
    Except.error HostStartupOptionsError.setHostBootFlashSlotFailed

/-! ### Zone bundle cleanup (sled-agent/src/zone_bundle.rs) -/

/-- `ZoneBundleCause`, in the source's declaration order (the derived `Ord`
is the cleanup priority: earlier variants are pruned first). -/
inductive ZoneBundleCause
  | other
  | unexpectedZone
  | terminatedInstance
  | explicitRequest
deriving DecidableEq

/-- The rank induced by the derived `Ord` on `ZoneBundleCause` (constructor
declaration order). -/
def causeRank : ZoneBundleCause → Nat
  | ZoneBundleCause.other => 0
  | ZoneBundleCause.unexpectedZone => 1
  | ZoneBundleCause.terminatedInstance => 2
  | ZoneBundleCause.explicitRequest => 3

/-- `ZoneBundleInfo`: the metadata fields `compare_bundles` and the cleanup
loop inspect (cause, creation time, on-disk size), plus an abstract path. -/
structure ZoneBundleInfo where
  cause : ZoneBundleCause
  timeCreated : Nat
  bytes : Nat
  path : Nat
deriving DecidableEq

/-- `PriorityDimension`. -/
inductive PriorityDimension
  | time
  | cause
deriving DecidableEq

/-- The sort key a dimension extracts from a bundle. -/
def dimKey (d : PriorityDimension) (b : ZoneBundleInfo) : Nat :=
  match d with
  | PriorityDimension.cause => causeRank b.cause
  | PriorityDimension.time => b.timeCreated

/-- `PriorityOrder::compare_bundles`: compare along each dimension in order,
returning the first non-equal comparison. -/
def compare_bundles (prio : List PriorityDimension)
    (lhs rhs : ZoneBundleInfo) : Ordering :=
  match prio with
  | [] => Ordering.eq
  | d :: rest =>
      match compare (dimKey d lhs) (dimKey d rhs) with
      | Ordering.eq => compare_bundles rest lhs rhs
      | o => o

/-- The "not greater" relation induced by `compare_bundles`, i.e. the order
`Vec::sort_by` sorts by. -/
def bundleLE (prio : List PriorityDimension) (a b : ZoneBundleInfo) : Prop :=
  compare_bundles prio a b ≠ Ordering.gt

instance bundleLE.decidableRel (prio : List PriorityDimension) :
    DecidableRel (bundleLE prio) :=
  fun a b => inferInstanceAs (Decidable (compare_bundles prio a b ≠ Ordering.gt))

/-- The sorted bundle list of one storage directory
(`info.sort_by(|lhs, rhs| context.priority.compare_bundles(lhs, rhs))`,
modelled by a stable insertion sort). -/
def sortedBundles (prio : List PriorityDimension) (l : List ZoneBundleInfo) :
    List ZoneBundleInfo :=
  List.insertionSort (bundleLE prio) l

/-- Total size in bytes of a list of bundles. -/
def sumBytes (l : List ZoneBundleInfo) : Nat :=
  (l.map ZoneBundleInfo.bytes).sum

/-- The deletion loop of `run_cleanup` for one directory: starting from
`nBytes = bytes_used`, stop as soon as `nBytes` is at or below
`bytes_available`, otherwise remove the next bundle and subtract its size
(`saturating_sub`, which is `Nat` subtraction).  Returns the bundles removed,
in removal order. -/
def removeUntil (avail : Nat) : Nat → List ZoneBundleInfo → List ZoneBundleInfo
  | _, [] => []
  | nBytes, b :: rest =>
      if nBytes ≤ avail then []
      else b :: removeUntil avail (nBytes - b.bytes) rest

/-- Per-root utilization and contents as `run_cleanup` sees them:
`bytes_used` and `bytes_available` from `compute_bundle_utilization` (the
external `du`/`zfs` invocations) and the enumerated bundles of the root. -/
structure RootData where
  bytesUsed : Nat
  bytesAvailable : Nat
  bundles : List ZoneBundleInfo
deriving DecidableEq

/-- Whether a root is within its storage budget. -/
def underBudget (p : Nat × RootData) : Bool :=
  decide (p.2.bytesUsed ≤ p.2.bytesAvailable)

/-- The bundles `run_cleanup` deletes from one root. -/
def cleanupRoot (prio : List PriorityDimension) (d : RootData) :
    List ZoneBundleInfo :=
  removeUntil d.bytesAvailable d.bytesUsed (sortedBundles prio d.bundles)

/-- The bundles remaining on disk in one root after cleanup. -/
def remainingRoot (prio : List PriorityDimension) (d : RootData) :
    List ZoneBundleInfo :=
  d.bundles.filter (fun b => decide (b ∉ cleanupRoot prio d))

/-- `CleanupCount`: bundles and bytes removed from a root. -/
structure CleanupCount where
  bundles : Nat
  bytes : Nat
deriving DecidableEq

/-- `run_cleanup`: if every root is within budget, return the empty map and
touch nothing; otherwise prune every root with the priority-sorted deletion
loop.  The result pairs the per-root `CleanupCount` map with the per-root
on-disk contents after the pass (storage roots are keyed by `Nat` standing
for their paths). -/
def run_cleanup (prio : List PriorityDimension)
    (roots : List (Nat × RootData)) :
    List (Nat × CleanupCount) × List (Nat × List ZoneBundleInfo) :=
  if roots.all underBudget then
    ([], roots.map (fun p => (p.1, p.2.bundles)))
  else
    (roots.map (fun p =>
        (p.1, CleanupCount.mk (cleanupRoot prio p.2).length
                (sumBytes (cleanupRoot prio p.2)))),
     roots.map (fun p => (p.1, remainingRoot prio p.2)))

/-! ### Cleanup context updates (`ZoneBundler::update_cleanup_context`) -/

/-- `CleanupContext`: period (seconds), storage limit (percent), priority
order. -/
structure CleanupContext where
  period : Nat
  storageLimit : Nat
  priority : List PriorityDimension
deriving DecidableEq

/-- `ZoneBundler::update_cleanup_context`: apply each provided field in the
source's order (period, priority, storage limit), setting the notify flag
when the new period is below the current period or the new storage limit is
below the current storage limit.  Returns the stored context and whether
`notify_cleanup.notify_one()` was called. -/
def update_cleanup_context (ctx : CleanupContext)
    (newPeriod newStorageLimit : Option Nat)
    (newPriority : Option (List PriorityDimension)) :
    CleanupContext × Bool :=
  let notifyAfterPeriod :=
    match newPeriod with
    | some p => decide (p < ctx.period)
    | Option.none => false
  let ctx1 :=
    match newPeriod with
    | some p => { ctx with period := p }
    | Option.none => ctx
  let ctx2 :=
    match newPriority with
    | some pr => { ctx1 with priority := pr }
    | Option.none => ctx1
  let notify :=
    notifyAfterPeriod ||
      (match newStorageLimit with
       | some l => decide (l < ctx.storageLimit)
       | Option.none => false)
  let ctx3 :=
    match newStorageLimit with
    | some l => { ctx2 with storageLimit := l }
    | Option.none => ctx2
  (ctx3, notify)

/-! ## Theorems -/

/-! ### C1 -/

/-- A staged plan used in the concrete evaluations. -/
def planW : UpdatePlan := ⟨1, 10⟩

/-- Tracker state with one unfinished record: device (sled, 3). -/
def stRunningSled : UpdateTrackerData :=
  { sp_update_data := [(⟨SpType.sled, 3⟩, ⟨false, [7]⟩)], plan := some ⟨0, 5⟩ }

/-- Tracker state with different unfinished records: (switch, 1) running and
(power, 0) finished. -/
def stRunningSwitch : UpdateTrackerData :=
  { sp_update_data :=
      [(⟨SpType.switch, 1⟩, ⟨false, []⟩), (⟨SpType.power, 0⟩, ⟨true, [1]⟩)],
    plan := Option.none }

/-- Tracker state whose records all have finished tasks. -/
def stAllFinished : UpdateTrackerData :=
  { sp_update_data :=
      [(⟨SpType.sled, 3⟩, ⟨true, [7, 8]⟩), (⟨SpType.power, 0⟩, ⟨true, [1]⟩)],
    plan := some ⟨0, 5⟩ }

/-- C1: `put_repository` is rejected exactly when some record's task is
unfinished and on success replaces the plan, clears the records and makes
every device report the default — but the rejection error does NOT list the
running devices: the Rust source applies `.to_owned()` to the literal
`"Updates currently running for {running_sps:?}"` instead of `format!`, so
two states with different running sets produce the identical message with
the uninterpolated placeholder.  This is evaluated here at the failing
inputs `stRunningSled` and `stRunningSwitch`, whose running sets differ. -/
theorem claim1_put_repository_message_bug :
    (put_repository stRunningSled planW).1 =
      Except.error "Updates currently running for \x7brunning_sps:?\x7d"
    ∧ (put_repository stRunningSwitch planW).1 =
      Except.error "Updates currently running for \x7brunning_sps:?\x7d"
    ∧ runningSps stRunningSled = [⟨SpType.sled, 3⟩]
    ∧ runningSps stRunningSwitch = [⟨SpType.switch, 1⟩]
    ∧ (put_repository stRunningSled planW).2 = stRunningSled
    ∧ (put_repository stRunningSwitch planW).2 = stRunningSwitch
    ∧ (put_repository stAllFinished planW).1 = Except.ok ()
    ∧ (put_repository stAllFinished planW).2.plan = some planW
    ∧ (put_repository stAllFinished planW).2.sp_update_data = []
    ∧ event_report (put_repository stAllFinished planW).2 ⟨SpType.sled, 3⟩ = [] := by
  refine ⟨rfl, rfl, rfl, rfl, rfl, rfl, rfl, rfl, rfl, rfl⟩

/-! ### C2 -/

/-- C2: whenever some target device has an unfinished task or no plan is
staged, `start_impl` (hence both `start` and `update_pre_checks`) returns
the full set of precondition failures — an `UpdateInProgress` error listing
exactly the in-progress devices of the requested set, plus
`TufRepositoryUnavailable` exactly when no plan is staged — and performs no
state change: the record map is untouched and no update task is spawned.
When neither precondition fails, the call succeeds. -/
theorem claim2_start_impl_preconditions (st : UpdateTrackerData)
    (sps : List SpIdentifier) (spawnDriver : Bool) :
    (update_pre_checks st sps = start_impl st sps false)
    ∧ ((sps.filter (fun sp => inProgress st sp) ≠ [] ∨ st.plan = Option.none) →
        ∃ errs,
          (start_impl st sps spawnDriver).1 = Except.error errs
          ∧ (start_impl st sps spawnDriver).2.1 = st
          ∧ (start_impl st sps spawnDriver).2.2 = 0
          ∧ ((∃ l, StartUpdateError.updateInProgress l ∈ errs) ↔
              ∃ sp ∈ sps, inProgress st sp = true)
          ∧ (∀ l, StartUpdateError.updateInProgress l ∈ errs →
              l = sps.filter (fun sp => inProgress st sp))
          ∧ (StartUpdateError.tufRepositoryUnavailable ∈ errs ↔
              st.plan = Option.none))
    ∧ ((sps.filter (fun sp => inProgress st sp) = [] ∧ st.plan ≠ Option.none) →
        (start_impl st sps spawnDriver).1 = Except.ok ()) := by
  refine ⟨rfl, ?_, ?_⟩
  · intro h
    by_cases hip : sps.filter (fun sp => inProgress st sp) = []
    · -- precondition failure must come from the missing plan
      have hplan : st.plan = Option.none := by
        rcases h with h | h
        · exact absurd hip h
        · exact h
      refine ⟨[StartUpdateError.tufRepositoryUnavailable], ?_, ?_, ?_, ?_, ?_, ?_⟩
      · simp [start_impl, hip, hplan]
      · simp [start_impl, hip, hplan]
      · simp [start_impl, hip, hplan]
      · constructor
        · rintro ⟨l, hl⟩
          simp at hl
        · rintro ⟨sp, hsp, hspin⟩
          have : sp ∈ sps.filter (fun sp => inProgress st sp) :=
            List.mem_filter.mpr ⟨hsp, hspin⟩
          rw [hip] at this
          exact absurd this (List.not_mem_nil sp)
      · intro l hl
        simp at hl
      · simp [hplan]
    · -- the in-progress list is nonempty
      cases hplan : st.plan with
      | none =>
          refine ⟨[StartUpdateError.updateInProgress
                    (sps.filter (fun sp => inProgress st sp)),
                   StartUpdateError.tufRepositoryUnavailable], ?_, ?_, ?_, ?_, ?_, ?_⟩
          · simp [start_impl, hip, hplan]
          · simp [start_impl, hip, hplan]
          · simp [start_impl, hip, hplan]
          · constructor
            · intro _
              have := List.exists_mem_of_ne_nil _ hip
              rcases this with ⟨sp, hsp⟩
              have := List.mem_filter.mp hsp
              exact ⟨sp, this.1, this.2⟩
            · intro _
              exact ⟨sps.filter (fun sp => inProgress st sp), by simp⟩
          · intro l hl
            simp at hl
            exact hl
          · simp
      | some p =>
          refine ⟨[StartUpdateError.updateInProgress
                    (sps.filter (fun sp => inProgress st sp))], ?_, ?_, ?_, ?_, ?_, ?_⟩
          · simp [start_impl, hip, hplan]
          · simp [start_impl, hip, hplan]
          · simp [start_impl, hip, hplan]
          · constructor
            · intro _
              have := List.exists_mem_of_ne_nil _ hip
              rcases this with ⟨sp, hsp⟩
              have := List.mem_filter.mp hsp
              exact ⟨sp, this.1, this.2⟩
            · intro _
              exact ⟨sps.filter (fun sp => inProgress st sp), by simp⟩
          · intro l hl
            simp at hl
            exact hl
          · simp [hplan]
  · rintro ⟨hip, hplan⟩
    have hsome : st.plan.isSome := Option.ne_none_iff_isSome.mp hplan
    cases spawnDriver <;> simp [start_impl, hip, hsome]

/-- C2 witness: applied to a concrete state with device (sled, 3) running
and the request set containing it. -/
theorem claim2_witness :
    ([(⟨SpType.sled, 3⟩ : SpIdentifier)].filter
        (fun sp => inProgress stRunningSled sp) ≠ [] ∨
      stRunningSled.plan = Option.none)
    ∧ ∃ errs,
        (start_impl stRunningSled [⟨SpType.sled, 3⟩] true).1 = Except.error errs
        ∧ (start_impl stRunningSled [⟨SpType.sled, 3⟩] true).2.1 = stRunningSled
        ∧ (start_impl stRunningSled [⟨SpType.sled, 3⟩] true).2.2 = 0
        ∧ ((∃ l, StartUpdateError.updateInProgress l ∈ errs) ↔
            ∃ sp ∈ [(⟨SpType.sled, 3⟩ : SpIdentifier)],
              inProgress stRunningSled sp = true)
        ∧ (∀ l, StartUpdateError.updateInProgress l ∈ errs →
            l = [(⟨SpType.sled, 3⟩ : SpIdentifier)].filter
                  (fun sp => inProgress stRunningSled sp))
        ∧ (StartUpdateError.tufRepositoryUnavailable ∈ errs ↔
            stRunningSled.plan = Option.none) :=
  ⟨by decide,
   (claim2_start_impl_preconditions stRunningSled [⟨SpType.sled, 3⟩] true).2.1
     (by decide)⟩

/-! ### C3 -/

/-- Setup against a plan whose hash matches the running uploader is a no-op,
iterated any number of times. -/
theorem setupIter_matching (planHash : Nat) :
    ∀ m : Nat, setupIter planHash m (some ⟨planHash⟩) = (some ⟨planHash⟩, 0) := by
  intro m
  induction m with
  | zero => rfl
  | succ n ih =>
      simp [setupIter, realSpawnUpdateDriverSetup, ih]

/-- C3: plan-level setup spawns exactly one upload task when none exists,
reuses a matching uploader without spawning or aborting, and aborts plus
respawns (one task each) when the recorded hash differs from the plan's
trampoline-phase-2 hash; consequently `n ≥ 1` start operations against the
same plan spawn exactly one upload task in total. -/
theorem claim3_trampoline_uploader_setup (planHash prevHash n : Nat) :
    realSpawnUpdateDriverSetup Option.none planHash = (some ⟨planHash⟩, 1, 0)
    ∧ realSpawnUpdateDriverSetup (some ⟨planHash⟩) planHash =
        (some ⟨planHash⟩, 0, 0)
    ∧ (prevHash ≠ planHash →
        realSpawnUpdateDriverSetup (some ⟨prevHash⟩) planHash =
          (some ⟨planHash⟩, 1, 1))
    ∧ (1 ≤ n → (setupIter planHash n Option.none).2 = 1) := by
  refine ⟨rfl, ?_, ?_, ?_⟩
  · simp [realSpawnUpdateDriverSetup, spawn_upload_trampoline_phase_2_to_mgs]
  · intro h
    simp [realSpawnUpdateDriverSetup, spawn_upload_trampoline_phase_2_to_mgs, h]
  · intro hn
    cases n with
    | zero => exact absurd hn (by decide)
    | succ m =>
        simp [setupIter, realSpawnUpdateDriverSetup,
          spawn_upload_trampoline_phase_2_to_mgs, setupIter_matching]

/-- C3 witness at hashes 7 ≠ 5 and three start operations. -/
theorem claim3_witness :
    realSpawnUpdateDriverSetup (some ⟨7⟩) 5 = (some ⟨5⟩, 1, 1)
    ∧ (setupIter 5 3 Option.none).2 = 1 :=
  ⟨(claim3_trampoline_uploader_setup 5 7 3).2.2.1 (by decide),
   (claim3_trampoline_uploader_setup 5 7 3).2.2.2 (by decide)⟩

/-! ### C4 -/

/-- If the poll at offset `k ≤ fuel` is the first successful read, the wait
loop returns that read's slot. -/
theorem rotWaitFrom_first_success (polls : Nat → Option Nat) (s : Nat) :
    ∀ fuel i k, k ≤ fuel → (∀ j, j < k → polls (i + j) = Option.none) →
      polls (i + k) = some s → rotWaitFrom polls i fuel = some s := by
  intro fuel
  induction fuel with
  | zero =>
      intro i k hk _ hs
      interval_cases k
      simpa [rotWaitFrom] using hs
  | succ n ih =>
      intro i k hk hfail hs
      cases k with
      | zero =>
          simp only [Nat.add_zero] at hs
          simp [rotWaitFrom, hs]
      | succ m =>
          have h0 : polls i = Option.none := by
            simpa using hfail 0 (Nat.succ_pos m)
          have hrec := ih (i + 1) m (Nat.le_of_succ_le_succ hk)
            (fun j hj => by
              have := hfail (j + 1) (Nat.succ_lt_succ hj)
              simpa [Nat.add_assoc, Nat.add_comm 1 j] using this)
            (by simpa [Nat.add_assoc, Nat.add_comm 1 m] using hs)
          simp [rotWaitFrom, h0, hrec]

/-- If every poll in the window fails, the wait loop returns the error. -/
theorem rotWaitFrom_all_fail (polls : Nat → Option Nat) :
    ∀ fuel i, (∀ k, k ≤ fuel → polls (i + k) = Option.none) →
      rotWaitFrom polls i fuel = Option.none := by
  intro fuel
  induction fuel with
  | zero =>
      intro i h
      simpa [rotWaitFrom] using h 0 (Nat.le_refl 0)
  | succ n ih =>
      intro i h
      have h0 : polls i = Option.none := by simpa using h 0 (Nat.zero_le _)
      have hrec := ih (i + 1) (fun k hk => by
        have := h (k + 1) (Nat.succ_le_succ hk)
        simpa [Nat.add_assoc, Nat.add_comm 1 k] using this)
      simp [rotWaitFrom, h0, hrec]

/-- C4: after the RoT firmware write the sub-engine registers, in order,
setting the target slot active with `persist = true`, resetting the RoT, and
the boot-confirmation wait; the wait polls the active slot once per second
for at most 30 seconds (timeout constant 30).  The confirmation step
succeeds exactly when the awaited read reports the updated slot; a
successful read of any other slot fails the step with
`RotUnexpectedActiveSlot`, the first successful read within the window
decides, and a window with no successful read fails the step. -/
theorem claim4_rot_boot_confirmation (firmwareSlot : Nat)
    (polls : Nat → Option Nat) :
    register_steps UpdateComponent.rot firmwareSlot =
      [SpComponentUpdateStepKind.sending, SpComponentUpdateStepKind.preparing,
       SpComponentUpdateStepKind.writing,
       SpComponentUpdateStepKind.settingActiveBootSlot true firmwareSlot,
       SpComponentUpdateStepKind.resetting,
       SpComponentUpdateStepKind.waitForBoot firmwareSlot]
    ∧ (rot_boot_confirm_step firmwareSlot polls = RotConfirmOutcome.success ↔
        wait_for_rot_reboot 30 polls = some firmwareSlot)
    ∧ (∀ s, wait_for_rot_reboot 30 polls = some s → s ≠ firmwareSlot →
        rot_boot_confirm_step firmwareSlot polls =
          RotConfirmOutcome.rotUnexpectedActiveSlot s)
    ∧ (wait_for_rot_reboot 30 polls = Option.none →
        rot_boot_confirm_step firmwareSlot polls =
          RotConfirmOutcome.getRotActiveSlotFailed)
    ∧ (∀ i s, i ≤ 30 → (∀ j, j < i → polls j = Option.none) →
        polls i = some s → wait_for_rot_reboot 30 polls = some s)
    ∧ ((∀ i, i ≤ 30 → polls i = Option.none) →
        rot_boot_confirm_step firmwareSlot polls =
          RotConfirmOutcome.getRotActiveSlotFailed) := by
  have hconf : ∀ s, wait_for_rot_reboot 30 polls = some s →
      rot_boot_confirm_step firmwareSlot polls =
        (if s = firmwareSlot then RotConfirmOutcome.success
         else RotConfirmOutcome.rotUnexpectedActiveSlot s) := by
    intro s hw
    unfold rot_boot_confirm_step
    rw [hw]
  have hnone : wait_for_rot_reboot 30 polls = Option.none →
      rot_boot_confirm_step firmwareSlot polls =
        RotConfirmOutcome.getRotActiveSlotFailed := by
    intro hw
    unfold rot_boot_confirm_step
    rw [hw]
  refine ⟨rfl, ?_, ?_, hnone, ?_, ?_⟩
  · constructor
    · intro h
      cases hw : wait_for_rot_reboot 30 polls with
      | none =>
          rw [hnone hw] at h
          exact RotConfirmOutcome.noConfusion h
      | some s =>
          rw [hconf s hw] at h
          by_cases hs : s = firmwareSlot
          · subst hs
            rfl
          · rw [if_neg hs] at h
            exact RotConfirmOutcome.noConfusion h
    · intro hw
      rw [hconf firmwareSlot hw]
      simp
  · intro s hw hs
    rw [hconf s hw, if_neg hs]
  · intro i s hi hfail hs
    exact rotWaitFrom_first_success polls s 30 0 i hi
      (fun j hj => by simpa using hfail j hj) (by simpa using hs)
  · intro hall
    have hw : wait_for_rot_reboot 30 polls = Option.none := by
      unfold wait_for_rot_reboot
      exact rotWaitFrom_all_fail polls 30 0 (fun k hk => by simpa using hall k hk)
    exact hnone hw

/-- Poll trace used by the C4 witness: reads fail for two seconds, then slot
1 is reported. -/
def pollsW : Nat → Option Nat := fun i => if i = 2 then some 1 else Option.none

/-- C4 witness: concrete run in which the first successful read arrives at
second 2 and reports the updated slot 1. -/
theorem claim4_witness :
    wait_for_rot_reboot 30 pollsW = some 1
    ∧ rot_boot_confirm_step 1 pollsW = RotConfirmOutcome.success := by
  have hw : wait_for_rot_reboot 30 pollsW = some 1 :=
    (claim4_rot_boot_confirmation 1 pollsW).2.2.2.2.1 2 1 (by decide)
      (by decide) (by decide)
  exact ⟨hw, ((claim4_rot_boot_confirmation 1 pollsW).2.1).mpr hw⟩

/-! ### C5 -/

/-- C5: with a non-empty reported written set the standard-boot step
persistently (persist = true) sets the host boot flash to the least of the
mapped slot numbers (A ↦ 0, B ↦ 1) with all boot options off, and with an
empty written set it fails with `SetHostBootFlashSlotFailed`. -/
theorem claim5_host_boot_slot (slotsWritten : List M2Slot) :
    (slotsWritten ≠ [] →
      ∃ m, setting_host_startup_options_standard slotsWritten =
          Except.ok ⟨m, true, standardBootOptions⟩
        ∧ m ∈ slotsWritten.map m2SlotIndex
        ∧ ∀ x ∈ slotsWritten, m ≤ m2SlotIndex x)
    ∧ (slotsWritten = [] →
        setting_host_startup_options_standard slotsWritten =
          Except.error HostStartupOptionsError.setHostBootFlashSlotFailed) := by
  constructor
  · intro hne
    have hnonempty : (slots_to_update slotsWritten).Nonempty := by
      rcases List.exists_mem_of_ne_nil slotsWritten hne with ⟨x, hx⟩
      exact ⟨m2SlotIndex x, by
        simp [slots_to_update]
        exact ⟨x, hx, rfl⟩⟩
    refine ⟨(slots_to_update slotsWritten).min' hnonempty, ?_, ?_, ?_⟩
    · simp [setting_host_startup_options_standard, dif_pos hnonempty]
    · have := (slots_to_update slotsWritten).min'_mem hnonempty
      simpa [slots_to_update] using this
    · intro x hx
      refine (slots_to_update slotsWritten).min'_le (m2SlotIndex x) ?_
      simp [slots_to_update]
      exact ⟨x, hx, rfl⟩
  · intro hnil
    subst hnil
    simp [setting_host_startup_options_standard, slots_to_update]

/-- C5 witness: installinator reported both M.2 slots written; the selected
persistent boot slot is 0. -/
theorem claim5_witness :
    ∃ m, setting_host_startup_options_standard [M2Slot.b, M2Slot.a] =
        Except.ok ⟨m, true, standardBootOptions⟩
      ∧ m ∈ [M2Slot.b, M2Slot.a].map m2SlotIndex
      ∧ ∀ x ∈ [M2Slot.b, M2Slot.a], m ≤ m2SlotIndex x :=
  (claim5_host_boot_slot [M2Slot.b, M2Slot.a]).1 (by decide)

/-! ### C6 -/

/-- C6: the RoT interrogation pairs active slot 0 (name A) with target slot 1
and the slot-B artifact, active slot 1 (name B) with target slot 0 and the
slot-A artifact, fails on any other reported slot, and reads the version
caboose from the reported active slot. -/
theorem claim6_interrogate_rot {α : Type} (rotA rotB : α) :
    interrogate_rot rotA rotB 0 = Except.ok ⟨'A', 1, rotB, 0⟩
    ∧ interrogate_rot rotA rotB 1 = Except.ok ⟨'B', 0, rotA, 1⟩
    ∧ (∀ n, interrogate_rot rotA rotB (n + 2) =
        Except.error InterrogateRotError.getRotActiveSlotFailed) := by
  exact ⟨rfl, rfl, fun n => rfl⟩

/-- C6 witness at concrete artifacts 17 (slot A) and 23 (slot B). -/
theorem claim6_witness :
    interrogate_rot 17 23 0 = Except.ok ⟨'A', 1, 23, 0⟩
    ∧ interrogate_rot 17 23 1 = Except.ok ⟨'B', 0, 17, 1⟩ :=
  ⟨(claim6_interrogate_rot 17 23).1, (claim6_interrogate_rot 17 23).2.1⟩

/-! ### C7 -/

/-- C7: during the Preparing stage, a `None` status, an `Aborted`, `Failed`
or `RotError` status, or any status carrying an id other than the update's
id terminates the poll with an error, while a run of matching `Preparing`
statuses followed by the first matching `InProgress` status ends the stage
successfully. -/
theorem claim7_preparing_poll (updateId : Nat) :
    (∀ rest, poll_component_update ComponentUpdateStage.preparing updateId
        (SpUpdateStatus.none :: rest) =
      some (Except.error PollError.spNoLongerProcessing))
    ∧ (∀ s rest i, statusId s = some i → i ≠ updateId →
        poll_component_update ComponentUpdateStage.preparing updateId
            (s :: rest) =
          some (Except.error PollError.differentUpdate))
    ∧ (∀ rest, poll_component_update ComponentUpdateStage.preparing updateId
          (SpUpdateStatus.aborted updateId :: rest) =
        some (Except.error PollError.updateAborted))
    ∧ (∀ rest code, poll_component_update ComponentUpdateStage.preparing
          updateId (SpUpdateStatus.failed updateId code :: rest) =
        some (Except.error (PollError.updateFailed code)))
    ∧ (∀ rest, poll_component_update ComponentUpdateStage.preparing updateId
          (SpUpdateStatus.rotError updateId :: rest) =
        some (Except.error PollError.rotErrorMsg))
    ∧ (∀ pre bytesReceived totalBytes rest,
        (∀ s ∈ pre, ∃ progress, s = SpUpdateStatus.preparing updateId progress) →
        poll_component_update ComponentUpdateStage.preparing updateId
            (pre ++ SpUpdateStatus.inProgress updateId bytesReceived totalBytes
              :: rest) =
          some (Except.ok ())) := by
  refine ⟨fun rest => rfl, ?_, ?_, ?_, ?_, ?_⟩
  · intro s rest i hid hne
    cases s with
    | none => exact absurd hid (by simp [statusId])
    | preparing id progress =>
        simp [statusId] at hid
        subst hid
        simp [poll_component_update, hne]
    | inProgress id br tb =>
        simp [statusId] at hid
        subst hid
        simp [poll_component_update, hne]
    | complete id =>
        simp [statusId] at hid
        subst hid
        simp [poll_component_update, hne]
    | aborted id =>
        simp [statusId] at hid
        subst hid
        simp [poll_component_update, hne]
    | failed id code =>
        simp [statusId] at hid
        subst hid
        simp [poll_component_update, hne]
    | rotError id =>
        simp [statusId] at hid
        subst hid
        simp [poll_component_update, hne]
  · intro rest
    simp [poll_component_update]
  · intro rest code
    simp [poll_component_update]
  · intro rest
    simp [poll_component_update]
  · intro pre
    induction pre with
    | nil =>
        intro br tb rest _
        simp [poll_component_update]
    | cons s pre ih =>
        intro br tb rest hpre
        have hrec := ih br tb rest
          (fun t ht => hpre t (List.mem_cons_of_mem s ht))
        rcases hpre s (List.mem_cons_self s pre) with ⟨progress, rfl⟩
        simpa [poll_component_update] using hrec

/-- C7 witness: update id 5; a wrong-id status is fatal and two matching
`Preparing` statuses followed by the first `InProgress` end the stage. -/
theorem claim7_witness :
    poll_component_update ComponentUpdateStage.preparing 5
        [SpUpdateStatus.preparing 9 Option.none] =
      some (Except.error PollError.differentUpdate)
    ∧ poll_component_update ComponentUpdateStage.preparing 5
        [SpUpdateStatus.preparing 5 Option.none,
         SpUpdateStatus.preparing 5 (some (1, 4)),
         SpUpdateStatus.inProgress 5 100 1000,
         SpUpdateStatus.none] =
      some (Except.ok ()) := by
  constructor
  · exact (claim7_preparing_poll 5).2.1 (SpUpdateStatus.preparing 9 Option.none)
      [] 9 rfl (by decide)
  · exact (claim7_preparing_poll 5).2.2.2.2.2
      [SpUpdateStatus.preparing 5 Option.none,
       SpUpdateStatus.preparing 5 (some (1, 4))] 100 1000 [SpUpdateStatus.none]
      (by
        intro s hs
        simp at hs
        rcases hs with rfl | rfl
        · exact ⟨Option.none, rfl⟩
        · exact ⟨some (1, 4), rfl⟩)

/-! ### C9 -/

/-- C9: `update_cleanup_context` raises the cleanup notification exactly when
a strictly smaller period or a strictly smaller storage limit is supplied,
and in every case stores the supplied values (a priority-only change updates
the context without notifying). -/
theorem claim9_update_cleanup_context (ctx : CleanupContext)
    (newPeriod newStorageLimit : Option Nat)
    (newPriority : Option (List PriorityDimension)) :
    ((update_cleanup_context ctx newPeriod newStorageLimit newPriority).2 = true ↔
      (∃ p, newPeriod = some p ∧ p < ctx.period) ∨
      (∃ l, newStorageLimit = some l ∧ l < ctx.storageLimit))
    ∧ (update_cleanup_context ctx newPeriod newStorageLimit newPriority).1.period =
        newPeriod.getD ctx.period
    ∧ (update_cleanup_context ctx newPeriod newStorageLimit
        newPriority).1.storageLimit = newStorageLimit.getD ctx.storageLimit
    ∧ (update_cleanup_context ctx newPeriod newStorageLimit
        newPriority).1.priority = newPriority.getD ctx.priority := by
  cases newPeriod with
  | none =>
      cases newStorageLimit with
      | none => cases newPriority <;> simp [update_cleanup_context]
      | some l => cases newPriority <;> simp [update_cleanup_context]
  | some p =>
      cases newStorageLimit with
      | none => cases newPriority <;> simp [update_cleanup_context]
      | some l => cases newPriority <;> simp [update_cleanup_context]

/-- C9 witness: lowering only the storage limit (period raised, priority
changed) raises the notification and stores all three new values. -/
theorem claim9_witness :
    ((update_cleanup_context ⟨600, 25, [PriorityDimension.cause,
        PriorityDimension.time]⟩ (some 700) (some 10)
        (some [PriorityDimension.time, PriorityDimension.cause])).2 = true ↔
      (∃ p, (some 700 : Option Nat) = some p ∧ p < 600) ∨
      (∃ l, (some 10 : Option Nat) = some l ∧ l < 25))
    ∧ (update_cleanup_context ⟨600, 25, [PriorityDimension.cause,
        PriorityDimension.time]⟩ (some 700) (some 10)
        (some [PriorityDimension.time, PriorityDimension.cause])).1.period =
      (some 700 : Option Nat).getD 600 :=
  ⟨(claim9_update_cleanup_context ⟨600, 25, [PriorityDimension.cause,
      PriorityDimension.time]⟩ (some 700) (some 10)
      (some [PriorityDimension.time, PriorityDimension.cause])).1,
   (claim9_update_cleanup_context ⟨600, 25, [PriorityDimension.cause,
      PriorityDimension.time]⟩ (some 700) (some 10)
      (some [PriorityDimension.time, PriorityDimension.cause])).2.1⟩

/-! ### C8 machinery: the priority order and the deletion loop -/

/-- Lexicographic comparison: a strictly smaller key on the first dimension
decides. -/
theorem compare_bundles_cons_lt {d : PriorityDimension}
    {a b : ZoneBundleInfo} (rest : List PriorityDimension)
    (h : dimKey d a < dimKey d b) :
    compare_bundles (d :: rest) a b = Ordering.lt := by
  simp only [compare_bundles]
  rw [Nat.compare_eq_lt.mpr h]

/-- Lexicographic comparison: a strictly larger key on the first dimension
decides. -/
theorem compare_bundles_cons_gt {d : PriorityDimension}
    {a b : ZoneBundleInfo} (rest : List PriorityDimension)
    (h : dimKey d b < dimKey d a) :
    compare_bundles (d :: rest) a b = Ordering.gt := by
  simp only [compare_bundles]
  rw [Nat.compare_eq_gt.mpr h]

/-- Lexicographic comparison: equal keys on the first dimension defer to the
remaining dimensions. -/
theorem compare_bundles_cons_eq {d : PriorityDimension}
    {a b : ZoneBundleInfo} (rest : List PriorityDimension)
    (h : dimKey d a = dimKey d b) :
    compare_bundles (d :: rest) a b = compare_bundles rest a b := by
  simp only [compare_bundles]
  rw [Nat.compare_eq_eq.mpr h]

/-- The sort order of `compare_bundles` is total. -/
theorem bundleLE_total (prio : List PriorityDimension) :
    ∀ a b : ZoneBundleInfo, bundleLE prio a b ∨ bundleLE prio b a := by
  induction prio with
  | nil =>
      intro a b
      left
      simp [bundleLE, compare_bundles]
  | cons d rest ih =>
      intro a b
      rcases Nat.lt_trichotomy (dimKey d a) (dimKey d b) with h | h | h
      · left
        simp [bundleLE, compare_bundles_cons_lt rest h]
      · rcases ih a b with hab | hba
        · left
          simpa [bundleLE, compare_bundles_cons_eq rest h] using hab
        · right
          simpa [bundleLE, compare_bundles_cons_eq rest h.symm] using hba
      · right
        simp [bundleLE, compare_bundles_cons_lt rest h]

/-- The sort order of `compare_bundles` is transitive. -/
theorem bundleLE_trans (prio : List PriorityDimension) :
    ∀ a b c : ZoneBundleInfo,
      bundleLE prio a b → bundleLE prio b c → bundleLE prio a c := by
  induction prio with
  | nil =>
      intro a b c _ _
      simp [bundleLE, compare_bundles]
  | cons d rest ih =>
      intro a b c hab hbc
      rcases Nat.lt_trichotomy (dimKey d a) (dimKey d b) with h1 | h1 | h1
      · have h2 : dimKey d b ≤ dimKey d c := by
          by_contra hgt
          push_neg at hgt
          exact hbc (compare_bundles_cons_gt rest hgt)
        have hac : dimKey d a < dimKey d c := lt_of_lt_of_le h1 h2
        simp [bundleLE, compare_bundles_cons_lt rest hac]
      · rcases Nat.lt_trichotomy (dimKey d b) (dimKey d c) with h2 | h2 | h2
        · have hac : dimKey d a < dimKey d c := h1 ▸ h2
          simp [bundleLE, compare_bundles_cons_lt rest hac]
        · have hac : dimKey d a = dimKey d c := h1.trans h2
          have hab' : bundleLE rest a b := by
            simpa [bundleLE, compare_bundles_cons_eq rest h1] using hab
          have hbc' : bundleLE rest b c := by
            simpa [bundleLE, compare_bundles_cons_eq rest h2] using hbc
          simpa [bundleLE, compare_bundles_cons_eq rest hac]
            using ih a b c hab' hbc'
        · exact absurd (compare_bundles_cons_gt rest h2) hbc
      · exact absurd (compare_bundles_cons_gt rest h1) hab

/-- The deletion loop removes a prefix of the (sorted) list it walks. -/
theorem removeUntil_prefix (avail : Nat) :
    ∀ (n : Nat) (l : List ZoneBundleInfo), removeUntil avail n l <+: l := by
  intro n l
  induction l generalizing n with
  | nil => simp [removeUntil]
  | cons b rest ih =>
      by_cases h : n ≤ avail
      · simp [removeUntil, h]
      · simp only [removeUntil, if_neg h]
        exact (List.cons_prefix_cons).mpr ⟨rfl, ih (n - b.bytes)⟩

/-- The deletion loop stops only when the running estimate has dropped to
the budget or the list is exhausted. -/
theorem removeUntil_stop (avail : Nat) :
    ∀ (n : Nat) (l : List ZoneBundleInfo),
      n - sumBytes (removeUntil avail n l) ≤ avail
      ∨ removeUntil avail n l = l := by
  intro n l
  induction l generalizing n with
  | nil => exact Or.inr rfl
  | cons b rest ih =>
      by_cases h : n ≤ avail
      · left
        simp [removeUntil, h, sumBytes]
      · rcases ih (n - b.bytes) with hle | heq
        · left
          simp only [removeUntil, if_neg h, sumBytes, List.map_cons,
            List.sum_cons]
          rw [← Nat.sub_sub]
          exact hle
        · right
          simp [removeUntil, if_neg h, heq]

/-- Minimality of the deletion loop: before each removed bundle, the running
estimate was still above the budget. -/
theorem removeUntil_min (avail : Nat) :
    ∀ (n : Nat) (l : List ZoneBundleInfo) (k : Nat),
      k < (removeUntil avail n l).length →
      avail < n - sumBytes ((removeUntil avail n l).take k) := by
  intro n l
  induction l generalizing n with
  | nil =>
      intro k hk
      simp [removeUntil] at hk
  | cons b rest ih =>
      intro k hk
      by_cases h : n ≤ avail
      · simp [removeUntil, h] at hk
      · simp only [removeUntil, if_neg h] at hk ⊢
        cases k with
        | zero =>
            simpa [sumBytes] using Nat.lt_of_not_le h
        | succ m =>
            simp only [List.length_cons, Nat.succ_lt_succ_iff] at hk
            have := ih (n - b.bytes) m hk
            simp only [List.take_succ_cons, sumBytes, List.map_cons,
              List.sum_cons]
            rw [← Nat.sub_sub]
            exact this

/-- A root already within budget has nothing removed. -/
theorem removeUntil_nil_of_le {avail n : Nat} (l : List ZoneBundleInfo)
    (h : n ≤ avail) : removeUntil avail n l = [] := by
  cases l <;> simp [removeUntil, h]

/-! ### C8 -/

/-- C8: when every root's `bytes_used` is at or below `bytes_available`,
cleanup returns the empty result and deletes nothing.  Otherwise each root's
bundles are sorted by the configured priority order — lexicographic over the
dimension list, causes ranked Other < UnexpectedZone < TerminatedInstance <
ExplicitRequest, earlier creation times lower — and a prefix of that sorted
order (the lowest-priority end) is deleted, exactly until the running
`bytes_used` estimate falls to or below `bytes_available` or the root has no
bundles left. -/
theorem claim8_run_cleanup (prio : List PriorityDimension)
    (roots : List (Nat × RootData)) :
    (causeRank ZoneBundleCause.other < causeRank ZoneBundleCause.unexpectedZone
      ∧ causeRank ZoneBundleCause.unexpectedZone <
          causeRank ZoneBundleCause.terminatedInstance
      ∧ causeRank ZoneBundleCause.terminatedInstance <
          causeRank ZoneBundleCause.explicitRequest)
    ∧ (∀ a b : ZoneBundleInfo, causeRank a.cause < causeRank b.cause →
        compare_bundles [PriorityDimension.cause, PriorityDimension.time] a b =
          Ordering.lt)
    ∧ (∀ a b : ZoneBundleInfo, a.cause = b.cause →
        a.timeCreated < b.timeCreated →
        compare_bundles [PriorityDimension.cause, PriorityDimension.time] a b =
          Ordering.lt)
    ∧ (roots.all underBudget = true →
        run_cleanup prio roots = ([], roots.map (fun p => (p.1, p.2.bundles))))
    ∧ (roots.all underBudget = false →
        ∀ r d, (r, d) ∈ roots →
          (r, CleanupCount.mk (cleanupRoot prio d).length
              (sumBytes (cleanupRoot prio d))) ∈ (run_cleanup prio roots).1
          ∧ cleanupRoot prio d <+: sortedBundles prio d.bundles
          ∧ List.Sorted (bundleLE prio) (sortedBundles prio d.bundles)
          ∧ (sortedBundles prio d.bundles).Perm d.bundles
          ∧ (d.bytesUsed - sumBytes (cleanupRoot prio d) ≤ d.bytesAvailable
              ∨ cleanupRoot prio d = sortedBundles prio d.bundles)
          ∧ (∀ k, k < (cleanupRoot prio d).length →
              d.bytesAvailable <
                d.bytesUsed - sumBytes ((cleanupRoot prio d).take k))) := by
  refine ⟨by decide, ?_, ?_, ?_, ?_⟩
  · intro a b h
    exact compare_bundles_cons_lt [PriorityDimension.time] h
  · intro a b hc ht
    rw [compare_bundles_cons_eq [PriorityDimension.time]
      (show dimKey PriorityDimension.cause a = dimKey PriorityDimension.cause b
        from congrArg causeRank hc)]
    exact compare_bundles_cons_lt [] ht
  · intro hall
    simp [run_cleanup, hall]
  · intro hsome r d hmem
    refine ⟨?_, removeUntil_prefix _ _ _, ?_, List.perm_insertionSort _ _,
      removeUntil_stop _ _ _, fun k hk => removeUntil_min _ _ _ k hk⟩
    · have : (fun p : Nat × RootData =>
          (p.1, CleanupCount.mk (cleanupRoot prio p.2).length
            (sumBytes (cleanupRoot prio p.2)))) (r, d) ∈
          roots.map (fun p =>
            (p.1, CleanupCount.mk (cleanupRoot prio p.2).length
              (sumBytes (cleanupRoot prio p.2)))) :=
        List.mem_map_of_mem _ hmem
      simpa [run_cleanup, hsome] using this
    · haveI : IsTotal ZoneBundleInfo (bundleLE prio) := ⟨bundleLE_total prio⟩
      haveI : IsTrans ZoneBundleInfo (bundleLE prio) := ⟨bundleLE_trans prio⟩
      exact List.sorted_insertionSort (bundleLE prio) d.bundles

/-- Roots used by the C8 and C10 witnesses: root 0 is over budget with two
bundles, root 1 is within budget with one bundle. -/
def rootsW : List (Nat × RootData) :=
  [(0, ⟨100, 40, [⟨ZoneBundleCause.explicitRequest, 50, 30, 0⟩,
                  ⟨ZoneBundleCause.terminatedInstance, 60, 45, 1⟩]⟩),
   (1, ⟨10, 40, [⟨ZoneBundleCause.other, 5, 3, 2⟩]⟩)]

/-- The over-budget root of `rootsW`. -/
def rootOverW : RootData :=
  ⟨100, 40, [⟨ZoneBundleCause.explicitRequest, 50, 30, 0⟩,
             ⟨ZoneBundleCause.terminatedInstance, 60, 45, 1⟩]⟩

/-- The default priority order `[Cause, Time]`. -/
def prioW : List PriorityDimension :=
  [PriorityDimension.cause, PriorityDimension.time]

/-- C8 witness: applied to `rootsW` under `[Cause, Time]`; the over-budget
root's deletions are a prefix of its priority-sorted bundles and stop at the
budget. -/
theorem claim8_witness :
    rootsW.all underBudget = false
    ∧ (0, CleanupCount.mk (cleanupRoot prioW rootOverW).length
        (sumBytes (cleanupRoot prioW rootOverW))) ∈ (run_cleanup prioW rootsW).1
    ∧ cleanupRoot prioW rootOverW <+: sortedBundles prioW rootOverW.bundles
    ∧ (rootOverW.bytesUsed - sumBytes (cleanupRoot prioW rootOverW) ≤
        rootOverW.bytesAvailable
       ∨ cleanupRoot prioW rootOverW = sortedBundles prioW rootOverW.bundles) := by
  have h := (claim8_run_cleanup prioW rootsW).2.2.2.2 (by decide) 0 rootOverW
    (by decide)
  exact ⟨by decide, h.1, h.2.1, h.2.2.2.2.1⟩

/-! ### C10 -/

/-- C10: a cleanup pass never touches a storage root whose `bytes_used` was
at or below `bytes_available` when utilization was computed: whether or not
other roots are over budget, such a root's deletion list is empty, its
on-disk contents after the pass equal its contents before, and — when the
pass does prune (some root over budget) — its reported cleanup count is zero
bundles and zero bytes. -/
theorem claim10_cleanup_frame (prio : List PriorityDimension)
    (roots : List (Nat × RootData)) (r : Nat) (d : RootData) :
    (r, d) ∈ roots → d.bytesUsed ≤ d.bytesAvailable →
    cleanupRoot prio d = []
    ∧ (r, d.bundles) ∈ (run_cleanup prio roots).2
    ∧ (roots.all underBudget = false →
        (r, CleanupCount.mk 0 0) ∈ (run_cleanup prio roots).1) := by
  intro hmem hle
  have hnil : cleanupRoot prio d = [] :=
    removeUntil_nil_of_le (sortedBundles prio d.bundles) hle
  have hremaining : remainingRoot prio d = d.bundles := by
    unfold remainingRoot
    rw [hnil]
    simp
  refine ⟨hnil, ?_, ?_⟩
  · by_cases hall : roots.all underBudget
    · have : (fun p : Nat × RootData => (p.1, p.2.bundles)) (r, d) ∈
          roots.map (fun p => (p.1, p.2.bundles)) :=
        List.mem_map_of_mem _ hmem
      simpa [run_cleanup, hall] using this
    · have : (fun p : Nat × RootData => (p.1, remainingRoot prio p.2)) (r, d) ∈
          roots.map (fun p => (p.1, remainingRoot prio p.2)) :=
        List.mem_map_of_mem _ hmem
      simpa [run_cleanup, hall, hremaining] using this
  · intro hsome
    have : (fun p : Nat × RootData =>
        (p.1, CleanupCount.mk (cleanupRoot prio p.2).length
          (sumBytes (cleanupRoot prio p.2)))) (r, d) ∈
        roots.map (fun p =>
          (p.1, CleanupCount.mk (cleanupRoot prio p.2).length
            (sumBytes (cleanupRoot prio p.2)))) :=
      List.mem_map_of_mem _ hmem
    simpa [run_cleanup, hsome, hnil, sumBytes] using this

/-- The under-budget root of `rootsW`. -/
def rootUnderW : RootData := ⟨10, 40, [⟨ZoneBundleCause.other, 5, 3, 2⟩]⟩

/-- C10 witness: in the `rootsW` pass — where root 0 is pruned — root 1,
which is within budget, keeps its single bundle and reports a zero count. -/
theorem claim10_witness :
    cleanupRoot prioW rootUnderW = []
    ∧ (1, rootUnderW.bundles) ∈ (run_cleanup prioW rootsW).2
    ∧ (1, CleanupCount.mk 0 0) ∈ (run_cleanup prioW rootsW).1 := by
  have h := claim10_cleanup_frame prioW rootsW 1 rootUnderW (by decide)
    (by decide)
  exact ⟨h.1, h.2.1, h.2.2 (by decide)⟩

end Spec2Proof
